import Mathlib

set_option autoImplicit false

/-!
Verification of the core of rattler-server against its specification.

The definitions below are a shallow embedding of the Rust sources:

* `src/generic_cache.rs` — the expiring single-flight cache (`GenericCache`);
* `src/error.rs`         — the error taxonomy and response mapping;
* `src/main.rs`          — request validation, channel expansion, the
                           bounded-parallel fetch stage and `parse_virtual_package`;
* `src/fetch.rs`         — compressed-variant selection for the index fetcher.

Machine integers do not overflow in any of the modelled code paths, so time
instants and durations are modelled as `Nat`.  The concurrent maps
(`DashMap`) are modelled as association lists with unique keys; the per-key
reader/writer lock of a write slot is modelled by a `WriterStatus` recording
whether the exclusive write guard is still alive.  External collaborators
(match-spec / channel / platform / version parsers, the HTTP client, the
solver backend and the topological sorter) are parameters, as mandated by
§6 of the specification, which treats them as interfaces the core consumes.
-/

namespace RattlerServer

/-- Result of looking a key up in an association list, modelling
`DashMap::get`: the first binding of the key, if any. -/
def lookupA {K A : Type} [DecidableEq K] : List (K × A) → K → Option A
  | [], _ => none
  | (k', a) :: rest, k => if k' = k then some a else lookupA rest k

/-- Modelling `DashMap::remove`: drop every binding of the key. -/
def removeA {K A : Type} [DecidableEq K] (m : List (K × A)) (k : K) : List (K × A) :=
  m.filter (fun e => decide (e.1 ≠ k))

/-- Modelling `DashMap::insert`: replace any previous binding of the key. -/
def insertA {K A : Type} [DecidableEq K] (m : List (K × A)) (k : K) (a : A) : List (K × A) :=
  (k, a) :: removeA m k

/-- State of the per-key write slot stored in `active_writes`
(`DashMap<TKey, Arc<RwLock<()>>>` in `src/generic_cache.rs`).

* `held`: the `OwnedRwLockWriteGuard` handed out inside the `WriteToken` is
  still alive, so a reader calling `.read().await` on the slot suspends.
* `released`: the write guard has been dropped (either by `set` or by
  dropping the token), so `.read().await` succeeds immediately — but the
  slot itself is still present in the map. -/
inductive WriterStatus where
  | held
  | released
  deriving DecidableEq

/-- The state of a `GenericCache<TKey, TValue>` (`src/generic_cache.rs`,
lines 17–21): the entry map `cached_data : DashMap<TKey, (Arc<TValue>, Instant)>`,
the writer-slot map `active_writes`, and the configured expiration. -/
structure CacheState (K V : Type) where
  cachedData : List (K × (V × Nat))
  activeWrites : List (K × WriterStatus)
  expiration : Nat

/-- Outcome of one iteration of the `loop` in `GenericCache::get_cached`
(`src/generic_cache.rs`, lines 61–97). -/
inductive StepResult (V : Type) where
  /-- `return GetCachedResult::Found(...)` — terminal. -/
  | found (v : V)
  /-- `return GetCachedResult::NotFound(WriteToken ...)` — terminal; the
  caller becomes the writer (the state records the freshly held slot). -/
  | notFound
  /-- The `Entry::Occupied` branch found a held write lock: the task
  suspends on `e.get().read().await` until the writer releases. -/
  | wait
  /-- The `Entry::Occupied` branch found a released lock: the read guard is
  acquired and dropped immediately and the loop restarts. -/
  | retry
  deriving DecidableEq

namespace GenericCache

/-- The cache-miss path of `get_cached` (`src/generic_cache.rs`, lines
72–95): inspect `active_writes.entry(key)`.  If occupied, await the read
side of the slot's lock (suspending iff the write guard is held).  If
vacant, create a lock, acquire its write side, insert the slot and return
a `WriteToken` to the caller. -/
def getCachedMiss {K V : Type} [DecidableEq K] (st : CacheState K V) (k : K) :
    StepResult V × CacheState K V :=
  match lookupA st.activeWrites k with
  | some .held => (.wait, st)
  | some .released => (.retry, st)
  | none => (.notFound, { st with activeWrites := insertA st.activeWrites k .held })

/-- One iteration of the loop in `GenericCache::get_cached`
(`src/generic_cache.rs`, lines 62–96), taken at wall-clock time `now`:
if a cache entry exists and `now > inserted_at + expiration` it is stale
and the code falls through to the miss path; if it exists and is fresh the
value is returned; otherwise the miss path runs. -/
def getCachedStep {K V : Type} [DecidableEq K] (st : CacheState K V) (k : K) (now : Nat) :
    StepResult V × CacheState K V :=
  match lookupA st.cachedData k with
  | some (v, t) =>
    if now > t + st.expiration then getCachedMiss st k
    else (.found v, st)
  | none => getCachedMiss st k

/-- Runs the `get_cached` loop for at most `fuel` iterations with no
interleaved transition by any other task.  `none` means no terminal
outcome was reached: either the fuel ran out while the loop kept
restarting, or the task suspended on a held write lock (which, absent any
other task's transition, never resumes). -/
def getCachedRun {K V : Type} [DecidableEq K] :
    Nat → CacheState K V → K → Nat → Option (StepResult V × CacheState K V)
  | 0, _, _, _ => none
  | fuel + 1, st, k, now =>
    match getCachedStep st k now with
    | (.found v, st') => some (.found v, st')
    | (.notFound, st') => some (.notFound, st')
    | (.retry, st') => getCachedRun fuel st' k now
    | (.wait, _) => none

/-- Step 1 of `GenericCache::set` (`src/generic_cache.rs`, line 101):
`self.cached_data.insert(token.key.clone(), (value, Instant::now()))`. -/
def insertEntry {K V : Type} [DecidableEq K] (st : CacheState K V) (k : K) (v : V) (now : Nat) :
    CacheState K V :=
  { st with cachedData := insertA st.cachedData k (v, now) }

/-- Step 2 of `GenericCache::set` (`src/generic_cache.rs`, line 105):
`drop(token.rw_guard)` — the write guard is dropped, waking every reader
suspended on the slot's lock; the slot itself is still in the map. -/
def releaseWriteLock {K V : Type} [DecidableEq K] (st : CacheState K V) (k : K) :
    CacheState K V :=
  { st with activeWrites := insertA st.activeWrites k .released }

/-- Step 3 of `GenericCache::set` (`src/generic_cache.rs`, line 108):
`self.active_writes.remove(&token.key)`. -/
def removeWriteSlot {K V : Type} [DecidableEq K] (st : CacheState K V) (k : K) :
    CacheState K V :=
  { st with activeWrites := removeA st.activeWrites k }

/-- `GenericCache::set` (`src/generic_cache.rs`, lines 100–109): insert the
entry, then release the write lock, then remove the write slot — in that
order. -/
def set {K V : Type} [DecidableEq K] (st : CacheState K V) (k : K) (v : V) (now : Nat) :
    CacheState K V :=
  removeWriteSlot (releaseWriteLock (insertEntry st k v now) k) k

/-- Dropping a `WriteToken` without calling `set`.  `WriteToken`
(`src/generic_cache.rs`, lines 122–126) owns only the key and the
`OwnedRwLockWriteGuard`; it has no `Drop` implementation of its own, so
dropping it merely drops the guard — releasing the lock — while the slot
stays in `active_writes`. -/
def dropWriteToken {K V : Type} [DecidableEq K] (st : CacheState K V) (k : K) :
    CacheState K V :=
  { st with activeWrites := insertA st.activeWrites k .released }

/-- `GenericCache::gc` (`src/generic_cache.rs`, lines 34–56): first collect
the keys whose entries are stale at the time of the scan, then remove
exactly those keys from `cached_data` in a second pass.  The writer-slot
map is not touched. -/
def gc {K V : Type} [DecidableEq K] (st : CacheState K V) (now : Nat) : CacheState K V :=
  let expiredKeys :=
    (st.cachedData.filter (fun e => decide (now > e.2.2 + st.expiration))).map (fun e => e.1)
  { st with cachedData := expiredKeys.foldl (fun m k => removeA m k) st.cachedData }

end GenericCache

/-- A single parse failure, `ParseError` in `src/error.rs` (lines 54–58). -/
structure ParseError where
  input : String
  error : String
  deriving DecidableEq

/-- `ValidationError` in `src/error.rs` (lines 26–36): match specs and
channels carry a list of parse failures (`ParseErrors`), virtual package
and platform carry a single one. -/
inductive ValidationError where
  | matchSpecs (errors : List ParseError)
  | virtualPackage (error : ParseError)
  | channels (errors : List ParseError)
  | platform (error : ParseError)
  deriving DecidableEq

/-- `SolveError` of the solver backend (collaborator interface, §6 of the
spec; variants as consumed by `src/error.rs`). -/
inductive SolveError where
  | unsolvable (details : List String)
  | parseMatchSpecError (spec : String)
  | unsupportedOperations (operations : List String)
  | cancelled
  deriving DecidableEq

/-- `ApiError` in `src/error.rs` (lines 14–24).  The payload of `Internal`
(`anyhow::Error`) is abstracted to its message string; the source error
attached to `FetchRepoDataJson` is abstracted to a cause string. -/
inductive ApiError where
  | internal (message : String)
  | validation (e : ValidationError)
  | fetchRepoDataJson (url : String) (cause : String)
  | solver (e : SolveError)
  deriving DecidableEq

/-- The observable part of an HTTP error response built by
`response_from_error`: the status code and the `error_kind` field of the
JSON body. -/
structure ErrorResponse where
  status : Nat
  errorKind : String
  deriving DecidableEq

/-- `rewrite_error` in `src/error.rs` (lines 63–70): the
`UnsupportedOperations` solver variant is converted into `Internal`
(wrapping the solver error as the internal message); everything else is
passed through. -/
def rewriteError : ApiError → ApiError
  | .solver (.unsupportedOperations ops) =>
    .internal ("unsupported operations: " ++ String.intercalate ", " ops)
  | e => e

/-- `response_from_error` in `src/error.rs` (lines 72–148), reduced to the
status code and `error_kind` of the produced response.  The
`Solver(UnsupportedOperations)` arm is `unreachable!()` in the source
because `rewrite_error` runs first; it is modelled by a sentinel response
that is proved never to be produced. -/
def responseFromError (e : ApiError) : ErrorResponse :=
  match rewriteError e with
  | .internal _ => { status := 500, errorKind := "internal" }
  | .fetchRepoDataJson _ _ => { status := 400, errorKind := "http" }
  | .validation _ => { status := 400, errorKind := "validation" }
  | .solver (.unsupportedOperations _) => { status := 0, errorKind := "unreachable" }
  | .solver (.unsolvable _) => { status := 409, errorKind := "solver" }
  | .solver (.parseMatchSpecError _) => { status := 400, errorKind := "validation" }
  | .solver .cancelled => { status := 400, errorKind := "validation" }

/-- The solve request body, `SolveEnvironment` in `src/dto.rs` (lines
6–13). -/
structure SolveEnvironment where
  name : String
  platform : String
  specs : List String
  virtualPackages : List String
  channels : List String
  deriving DecidableEq

/-- A parsed channel (collaborator type `rattler_conda_types::Channel`,
restricted to the fields the pipeline reads): its base URL and the
optional explicit list of platforms. -/
structure Channel (PL : Type) where
  baseUrl : String
  platforms : Option (List PL)
  deriving DecidableEq

/-- The per-field accumulation loops of `solve_environment_inner`
(`src/main.rs`, lines 111–121 for match specs and 138–148 for channels):
each input is parsed in order; successes are pushed onto one list and
failures, paired with the offending input, onto another. -/
def collectParses {A : Type} (parse : String → Except String A) :
    List String → List A × List ParseError
  | [] => ([], [])
  | s :: rest =>
    let tail := collectParses parse rest
    match parse s with
    | .ok a => (a :: tail.1, tail.2)
    | .error e => (tail.1, { input := s, error := e } :: tail.2)

/-- The virtual-package loop of `solve_environment_inner` (`src/main.rs`,
lines 131–135): each entry is parsed in order and the first failure
aborts the whole loop, wrapped as `ValidationError::VirtualPackage`. -/
def parseAllVirtualPackages {VP : Type} (pvp : String → Except ParseError VP) :
    List String → Except ValidationError (List VP)
  | [] => .ok []
  | s :: rest =>
    match pvp s with
    | .error e => .error (.virtualPackage e)
    | .ok v =>
      match parseAllVirtualPackages pvp rest with
      | .error e => .error e
      | .ok vs => .ok (v :: vs)

/-- The first virtual-package parse failure in input order; used to state
which single error the fail-fast loop `parseAllVirtualPackages`
reports. -/
def firstVpFailure {VP : Type} (pvp : String → Except ParseError VP) :
    List String → Option ParseError
  | [] => none
  | s :: rest =>
    match pvp s with
    | .error e => some e
    | .ok _ => firstVpFailure pvp rest

/-- The validated request assembled by `solve_environment_inner` before
any network work. -/
structure ValidatedRequest (MS VP CH PL : Type) where
  matchspecs : List MS
  virtualPackages : List VP
  channels : List CH
  platform : PL

/-- The validation stage of `solve_environment_inner` (`src/main.rs`,
lines 110–170), parameterized by the external parsers
(`MatchSpec::from_str`, `Channel::from_str`, `Platform::from_str`) and by
the virtual-package parser.  Match specs are validated first (failures
accumulated), then virtual packages (first failure aborts), then channels
(failures accumulated), then the platform (fail fast). -/
def validateRequest {MS VP CH PL : Type}
    (parseMatchSpec : String → Except String MS)
    (pvp : String → Except ParseError VP)
    (parseChannel : String → Except String CH)
    (parsePlatform : String → Except String PL)
    (payload : SolveEnvironment) :
    Except ValidationError (ValidatedRequest MS VP CH PL) :=
  let ms := collectParses parseMatchSpec payload.specs
  if ms.2.isEmpty then
    match parseAllVirtualPackages pvp payload.virtualPackages with
    | .error e => .error e
    | .ok vps =>
      let ch := collectParses parseChannel payload.channels
      if ch.2.isEmpty then
        match parsePlatform payload.platform with
        | .error e => .error (.platform { input := payload.platform, error := e })
        | .ok plat =>
          .ok { matchspecs := ms.1, virtualPackages := vps, channels := ch.1, platform := plat }
      else .error (.channels ch.2)
  else .error (.matchSpecs ms.2)

/-- Splitting a character list at a separator character, modelling Rust's
`str::split`: the result always has exactly one more segment than there
are separator occurrences, and empty segments are preserved (so an input
without the separator yields one segment, and a trailing separator yields
a trailing empty segment). -/
def splitSepChars (sep : Char) : List Char → List (List Char)
  | [] => [[]]
  | c :: rest =>
    if c = sep then [] :: splitSepChars sep rest
    else
      match splitSepChars sep rest with
      | [] => [[c]]
      | g :: gs => (c :: g) :: gs

/-- `virtual_package.split('=')` (`src/main.rs`, line 220). -/
def splitEq (s : String) : List String :=
  (splitSepChars '=' s.toList).map (fun cs => String.mk cs)

/-- A parsed virtual package, `GenericVirtualPackage` as constructed by
`parse_virtual_package` in `src/main.rs` (lines 241–248).  The package
name and version types are parameters (collaborator types). -/
structure GenericVirtualPackage (Name Vers : Type) where
  name : Name
  version : Vers
  buildString : String
  deriving DecidableEq

/-- `parse_virtual_package` in `src/main.rs` (lines 219–249), parameterized
by the external version parser (`Version::from_str`) and package-name
constructor (`PackageName::try_from`).  The string is split on the
character that separates the fields; the first segment is the name, the
second (default the zero-version string) is parsed as the version, the
third (default likewise) is the build string; a fourth segment yields the
`too many equals signs` error.  The source parses the version *before*
checking for a fourth segment, and validates the name *after* that
check. -/
def parse_virtual_package {Name Vers : Type}
    (parseVersion : String → Except String Vers)
    (tryFromPackageName : String → Except String Name)
    (virtualPackage : String) :
    Except ParseError (GenericVirtualPackage Name Vers) :=
  let parts := splitEq virtualPackage
  let name := parts.headD ""
  match parseVersion ((parts.get? 1).getD "0") with
  | .error e => .error { input := virtualPackage, error := "invalid version - " ++ e }
  | .ok version =>
    let buildString := (parts.get? 2).getD "0"
    if (parts.get? 3).isSome then
      .error { input := virtualPackage, error := "too many equals signs" }
    else
      match tryFromPackageName name with
      | .error e => .error { input := virtualPackage, error := e }
      | .ok pname => .ok { name := pname, version := version, buildString := buildString }

/-- Moves items from `pending` into the in-flight window (appending at the
back, preserving start order) until either the window holds `n` futures or
no pending item remains — how `buffer_unordered(n)` starts futures from
the underlying stream. -/
def fillWindow {A : Type} (n : Nat) : List A → List A → List A × List A
  | [], inflight => ([], inflight)
  | p :: rest, inflight =>
    if inflight.length < n then fillWindow n rest (inflight ++ [p])
    else (p :: rest, inflight)

/-- Executes a `buffer_unordered(n)` stream: repeatedly fill the window,
then let the in-flight future selected by the head of `sched` (reduced
modulo the window size) complete and emit its result.  The schedule models
the completion order chosen by the runtime, which `buffer_unordered` does
not constrain.  `fuel` bounds the number of emissions; one item is emitted
per step, so fuel equal to the stream length runs it to completion. -/
def buRun {A : Type} (n : Nat) : Nat → List Nat → List A → List A → List A
  | 0, _, _, _ => []
  | fuel + 1, sched, pending, inflight =>
    match fillWindow n pending inflight with
    | (_, []) => []
    | (pending', x :: xs) =>
      let i := sched.headD 0 % (x :: xs).length
      (x :: xs).getD i x :: buRun n fuel sched.tail pending' ((x :: xs).eraseIdx i)

/-- The output sequence of `.buffer_unordered(n)` over `items`, under
completion schedule `sched` (`src/main.rs`, line 192). -/
def bufferUnordered {A : Type} (n : Nat) (sched : List Nat) (items : List A) : List A :=
  buRun n items.length sched items []

/-- `try_collect` over a stream of results: collect the `ok` values in
stream order, stopping at the first error (`src/main.rs`, line 193). -/
def tryCollect {E A : Type} : List (Except E A) → Except E (List A)
  | [] => .ok []
  | x :: rest =>
    match x with
    | .error e => .error e
    | .ok a =>
      match tryCollect rest with
      | .error e => .error e
      | .ok vs => .ok (a :: vs)

/-- The bounded-parallel fetch stage of `solve_environment_inner`
(`src/main.rs`, lines 186–194): map each (channel, platform) pair
to its cache lookup, drive them with `buffer_unordered(n)` under the
runtime's completion schedule, and `try_collect` the emitted results. -/
def fetchStage {E A B : Type} (n : Nat) (sched : List Nat) (pairs : List B)
    (fetch : B → Except E A) : Except E (List A) :=
  tryCollect (bufferUnordered n sched (pairs.map fetch))

/-- The compressed-variant encodings of `src/fetch.rs` (lines 75–78). -/
inductive Encoding where
  | zst
  | bz2
  deriving DecidableEq

/-- `get_repodata_url` in `src/fetch.rs` (lines 80–113): given the
availability flags reported by the variant probe
(`check_variant_availability`), pick the first available variant in the
order zstd, bzip2, uncompressed, and return the joined URL together with
the matching encoding.  `Url::join` on the subdir URL is modelled as
string append. -/
def get_repodata_url (subdirUrl : String) (hasZst hasBz2 : Bool) : String × Option Encoding :=
  if hasZst then (subdirUrl ++ "repodata.json.zst", some .zst)
  else if hasBz2 then (subdirUrl ++ "repodata.json.bz2", some .bz2)
  else (subdirUrl ++ "repodata.json", none)

/-- The channel × subdir expansion of `solve_environment_inner`
(`src/main.rs`, lines 172–184): each channel contributes its explicitly
declared platforms, or `[target_platform, NoArch]` when it declares none,
and the flat list preserves channel order. -/
def channelsAndPlatforms {PL : Type} (channels : List (Channel PL)) (targetPlatform noarch : PL) :
    List (Channel PL × PL) :=
  channels.flatMap (fun channel =>
    (channel.platforms.getD [targetPlatform, noarch]).map (fun p => (channel, p)))

/-- The collaborators and configuration consumed by
`solve_environment_inner`: the four external parsers, the `NoArch`
platform constant, the configured concurrency bound and the runtime's
completion schedule, the per-pair cache lookup
(`AvailablePackagesCache::get`), the solver backend and the topological
sorter (`PackageRecord::sort_topologically`). -/
structure PipelineEnv (MS VP PL A R : Type) where
  parseMatchSpec : String → Except String MS
  parseVirtualPackageFn : String → Except ParseError VP
  parseChannel : String → Except String (Channel PL)
  parsePlatform : String → Except String PL
  noarch : PL
  concurrentDownloads : Nat
  sched : List Nat
  fetchIndex : Channel PL × PL → Except ApiError A
  solve : List A → List VP → List MS → Except SolveError (List R)
  sortTopologically : List R → List R

/-- `solve_environment_inner` (`src/main.rs`, lines 103–217): validate the
payload (wrapping validation failures in `ApiError::Validation`), expand
channels × platforms, run the bounded-parallel fetch stage, hand the
collected index artifacts together with the parsed virtual packages and
match specs to the solver, and topologically sort the solver's output.
The `spawn_blocking` panic path (mapped to `Internal`) concerns the host
runtime and is outside this pure model; the solver is total here. -/
def solveEnvironmentInner {MS VP PL A R : Type}
    (env : PipelineEnv MS VP PL A R) (payload : SolveEnvironment) :
    Except ApiError (List R) :=
  match validateRequest env.parseMatchSpec env.parseVirtualPackageFn env.parseChannel
      env.parsePlatform payload with
  | .error e => .error (.validation e)
  | .ok v =>
    let pairs := channelsAndPlatforms v.channels v.platform env.noarch
    match fetchStage env.concurrentDownloads env.sched pairs env.fetchIndex with
    | .error e => .error e
    | .ok artifacts =>
      match env.solve artifacts v.virtualPackages v.matchspecs with
      | .error e => .error (.solver e)
      | .ok records => .ok (env.sortTopologically records)

/-- The empty cache with a 60-second expiration, matching `default_cache`
in the tests of `src/generic_cache.rs`. -/
def emptyCache : CacheState Nat String :=
  { cachedData := [], activeWrites := [], expiration := 60 }

/-- The state reached after `get_cached(42)` returns `NotFound(token)` on
the empty cache: the caller holds the write token. -/
def stAfterMiss : CacheState Nat String :=
  (GenericCache.getCachedStep emptyCache 42 0).2

/-- A cache holding the two entries of scenario S1: key 42 inserted at
time 0 and key 43 inserted at time 30, with a 60-second expiration. -/
def stTwoEntries : CacheState Nat String :=
  { cachedData := [(42, ("foo", 0)), (43, ("bar", 30))], activeWrites := [], expiration := 60 }

/-- A cache with no entry for key 42 but a held write slot for it: the
state observed by a reader while another task holds the write token. -/
def stHeld : CacheState Nat String :=
  { cachedData := [], activeWrites := [(42, WriterStatus.held)], expiration := 60 }

/-- A cache holding a single entry for key 7, inserted at time 100. -/
def stFresh : CacheState Nat String :=
  { cachedData := [(7, ("idx", 100))], activeWrites := [], expiration := 60 }

/-- A trivially succeeding string parser, standing in for an external
parser on inputs that are all valid. -/
def okParse : String → Except String String := fun s => .ok s

/-- A virtual-package parser stub that accepts exactly the input string
that equals its valid form and rejects everything else, used to exercise
the accumulation behaviour of `validateRequest` on concrete inputs. -/
def vpRejecting : String → Except ParseError String := fun s =>
  if s = "ok" then .ok s else .error { input := s, error := "invalid virtual package" }

/-- A channel parser stub rejecting exactly the inputs whose first three
characters spell bad, used to exercise channel-error accumulation. -/
def chanRejecting : String → Except String (Channel String) := fun s =>
  if s.toList.take 3 = ['b', 'a', 'd'] then .error "invalid channel"
  else .ok { baseUrl := s, platforms := none }

/-- A solve request carrying two malformed virtual packages and otherwise
well-formed fields. -/
def payloadTwoBadVps : SolveEnvironment :=
  { name := "env", platform := "linux-64", specs := [],
    virtualPackages := ["bad1", "bad2"], channels := [] }

/-- A solve request carrying two malformed channels and otherwise
well-formed fields. -/
def payloadBadChannels : SolveEnvironment :=
  { name := "env", platform := "linux-64", specs := [], virtualPackages := ["ok"],
    channels := ["badA", "badB"] }

/-- Stand-in for the external `Version` parser (`Version::from_str` of
`rattler_conda_types`, a §6 collaborator): accepts decimal-digit version
strings.  It is used only to run `parse_virtual_package` on concrete
inputs; like the real parser it accepts the default version string and
rejects the empty string. -/
def versionOfNat (s : String) : Except String Nat :=
  if s.toList ≠ [] ∧ s.toList.all (fun c => c.isDigit) then
    .ok (s.toList.foldl (fun n c => n * 10 + (c.toNat - 48)) 0)
  else .error ("not a valid version: " ++ s)

/-- Stand-in for `PackageName::try_from` that accepts every name; only the
control flow of `parse_virtual_package` matters for the concrete runs
below. -/
def packageNameOk : String → Except String String := fun s => .ok s

/-! ## Basic lemmas about the association-list map operations -/

theorem removeA_cons {K A : Type} [DecidableEq K] (ek : K) (ea : A) (rest : List (K × A))
    (k : K) :
    removeA ((ek, ea) :: rest) k =
      if ek = k then removeA rest k else (ek, ea) :: removeA rest k := by
  by_cases h : ek = k <;> simp [removeA, List.filter_cons, h]

theorem lookupA_removeA {K A : Type} [DecidableEq K] (m : List (K × A)) (k k' : K) :
    lookupA (removeA m k) k' = if k = k' then none else lookupA m k' := by
  induction m with
  | nil => simp [removeA, lookupA]
  | cons e rest ih =>
    rcases e with ⟨ek, ea⟩
    rw [removeA_cons]
    by_cases hek : ek = k
    · subst hek
      rw [if_pos rfl, ih]
      by_cases hkk : ek = k'
      · subst hkk; simp
      · simp [lookupA, hkk]
    · rw [if_neg hek]
      by_cases hkk' : ek = k'
      · subst hkk'
        have hne : ¬ k = ek := fun h => hek h.symm
        simp [lookupA, hne]
      · simp [lookupA, hkk', ih]

theorem lookupA_insertA {K A : Type} [DecidableEq K] (m : List (K × A)) (k k' : K) (a : A) :
    lookupA (insertA m k a) k' = if k = k' then some a else lookupA m k' := by
  by_cases h : k = k'
  · subst h; simp [insertA, lookupA]
  · simp [insertA, lookupA, h, lookupA_removeA]

theorem lookupA_foldl_removeA {K A : Type} [DecidableEq K] (ks : List K) (m : List (K × A))
    (k : K) :
    lookupA (ks.foldl (fun m' k' => removeA m' k') m) k =
      if k ∈ ks then none else lookupA m k := by
  induction ks generalizing m with
  | nil => simp
  | cons k0 rest ih =>
    simp only [List.foldl_cons]
    rw [ih]
    by_cases hmem : k ∈ rest
    · simp [hmem]
    · by_cases h0 : k0 = k
      · subst h0; simp [hmem, lookupA_removeA]
      · have : ¬ k = k0 := fun h => h0 h.symm
        simp [hmem, this, lookupA_removeA, h0]

theorem lookupA_eq_none_iff {K A : Type} [DecidableEq K] (m : List (K × A)) (k : K) :
    lookupA m k = none ↔ k ∉ m.map Prod.fst := by
  induction m with
  | nil => simp [lookupA]
  | cons e rest ih =>
    rcases e with ⟨ek, ea⟩
    by_cases h : ek = k
    · subst h; simp [lookupA]
    · have hke : ¬ k = ek := fun he => h he.symm
      rw [show lookupA ((ek, ea) :: rest) k = lookupA rest k from by simp [lookupA, h]]
      rw [ih]
      simp [List.mem_cons, hke]

theorem not_mem_filter_keys {K A : Type} [DecidableEq K] (m : List (K × A)) (p : K × A → Bool)
    (k : K) (hl : lookupA m k = none) : k ∉ (m.filter p).map Prod.fst := by
  intro hmem
  rw [lookupA_eq_none_iff] at hl
  rcases List.mem_map.mp hmem with ⟨e, he, hfst⟩
  exact hl (List.mem_map.mpr ⟨e, List.mem_of_mem_filter he, hfst⟩)

theorem mem_filter_keys_iff {K A : Type} [DecidableEq K] (m : List (K × A)) (p : K × A → Bool)
    (k : K) (a : A) (hnd : (m.map Prod.fst).Nodup) (hl : lookupA m k = some a) :
    k ∈ (m.filter p).map Prod.fst ↔ p (k, a) = true := by
  induction m with
  | nil => simp [lookupA] at hl
  | cons e rest ih =>
    rcases e with ⟨ek, ea⟩
    simp only [List.map_cons, List.nodup_cons] at hnd
    by_cases hek : ek = k
    · subst hek
      have hea : ea = a := by simpa [lookupA] using hl
      subst hea
      have hnotin : ek ∉ (rest.filter p).map Prod.fst := by
        intro hmem
        rcases List.mem_map.mp hmem with ⟨e, he, hfst⟩
        exact hnd.1 (List.mem_map.mpr ⟨e, List.mem_of_mem_filter he, hfst⟩)
      rw [List.filter_cons]
      by_cases hp : p (ek, ea) = true
      · simp [hp]
      · simp [hp, hnotin]
    · have hke : ¬ k = ek := fun h => hek h.symm
      have hl' : lookupA rest k = some a := by simpa [lookupA, hek] using hl
      rw [List.filter_cons]
      by_cases hp : p (ek, ea) = true
      · simp [hp, hke, ih hnd.2 hl']
      · simp [hp, ih hnd.2 hl']

theorem getCachedMiss_ne_found {K V : Type} [DecidableEq K] (st : CacheState K V) (k : K)
    (w : V) : (GenericCache.getCachedMiss st k).1 ≠ StepResult.found w := by
  cases h : lookupA st.activeWrites k with
  | none => simp [GenericCache.getCachedMiss, h]
  | some ws => cases ws <;> simp [GenericCache.getCachedMiss, h]

/-! ## Claim theorems -/

/-- C5: for every key k with an entry inserted at time t with value v,
`get_cached(k)` at any time `now ≤ t + expiration` returns `Found(v)` and
leaves the cache untouched, while at any time `now > t + expiration` the
entry is treated as absent: the step is exactly the writer-coordination
miss path, which never returns a value. -/
theorem getCached_freshness {K V : Type} [DecidableEq K] (st : CacheState K V) (k : K) (v : V)
    (t now : Nat) (hent : lookupA st.cachedData k = some (v, t)) :
    (now ≤ t + st.expiration → GenericCache.getCachedStep st k now = (.found v, st)) ∧
    (now > t + st.expiration →
      GenericCache.getCachedStep st k now = GenericCache.getCachedMiss st k ∧
      ∀ w : V, (GenericCache.getCachedMiss st k).1 ≠ StepResult.found w) := by
  constructor
  · intro hfresh
    have hns : ¬ now > t + st.expiration := Nat.not_lt.mpr hfresh
    simp [GenericCache.getCachedStep, hent, hns]
  · intro hstale
    exact ⟨by simp [GenericCache.getCachedStep, hent, hstale], getCachedMiss_ne_found st k⟩

/-- Witness for C5 at the concrete cache `stFresh` (entry for key 7
inserted at time 100, expiration 60): at time 160 the entry is still
served, at time 161 the reader falls through to the miss path. -/
theorem getCached_freshness_witness :
    GenericCache.getCachedStep stFresh 7 160 = (StepResult.found "idx", stFresh) ∧
    GenericCache.getCachedStep stFresh 7 161 = GenericCache.getCachedMiss stFresh 7 :=
  ⟨(getCached_freshness stFresh 7 "idx" 100 160 rfl).1 (by decide),
   ((getCached_freshness stFresh 7 "idx" 100 161 rfl).2 (by decide)).1⟩

/-- C4: `set` inserts the entry, then releases the write lock, then
removes the write slot, in that order.  Consequently (i) at the moment
the lock is released — after step 2, before step 3 — the entry map
already holds the published value, so an awakened waiter finds it on its
next loop iteration; (ii) after `set` completes, the write slot is gone;
(iii) while the token is held, a concurrent `get_cached` for the same key
never returns NotFound; and (iv) after `set`, a `get_cached` within the
expiration window returns `Found(v)`. -/
theorem set_publish_release_order {K V : Type} [DecidableEq K] (st : CacheState K V) (k : K)
    (v : V) (now now' : Nat) :
    lookupA (GenericCache.releaseWriteLock (GenericCache.insertEntry st k v now) k).cachedData
        k = some (v, now) ∧
    lookupA (GenericCache.set st k v now).activeWrites k = none ∧
    (lookupA st.activeWrites k = some WriterStatus.held →
      (GenericCache.getCachedStep st k now').1 ≠ StepResult.notFound) ∧
    (now' ≤ now + st.expiration →
      (GenericCache.getCachedStep (GenericCache.set st k v now) k now').1 =
        StepResult.found v) := by
  refine ⟨?_, ?_, ?_, ?_⟩
  · simp [GenericCache.releaseWriteLock, GenericCache.insertEntry, lookupA_insertA]
  · simp [GenericCache.set, GenericCache.removeWriteSlot, GenericCache.releaseWriteLock,
      GenericCache.insertEntry, lookupA_removeA]
  · intro hheld
    cases hent : lookupA st.cachedData k with
    | none => simp [GenericCache.getCachedStep, GenericCache.getCachedMiss, hent, hheld]
    | some p =>
      rcases p with ⟨v0, t0⟩
      by_cases hstale : now' > t0 + st.expiration
      · simp [GenericCache.getCachedStep, GenericCache.getCachedMiss, hent, hstale, hheld]
      · simp [GenericCache.getCachedStep, hent, hstale]
  · intro hfresh
    have hcd : (GenericCache.set st k v now).cachedData = insertA st.cachedData k (v, now) := rfl
    have hexp : (GenericCache.set st k v now).expiration = st.expiration := rfl
    have hns : ¬ now' > now + (GenericCache.set st k v now).expiration := by
      rw [hexp]; exact Nat.not_lt.mpr hfresh
    simp [GenericCache.getCachedStep, hcd, lookupA_insertA, hns]

/-- Witness for C4 at the concrete cache `stHeld` (no entry for key 42,
held write slot): a reader does not get NotFound while the token is held,
and finds the value after `set`. -/
theorem set_publish_release_order_witness :
    (GenericCache.getCachedStep stHeld 42 5).1 ≠ StepResult.notFound ∧
    (GenericCache.getCachedStep (GenericCache.set stHeld 42 "foo" 5) 42 6).1 =
      StepResult.found "foo" :=
  ⟨(set_publish_release_order stHeld 42 "foo" 5 5).2.2.1 rfl,
   (set_publish_release_order stHeld 42 "foo" 5 6).2.2.2 (by decide)⟩

/-- C6: provided the entry map has no duplicate keys (an invariant of the
underlying `DashMap`), `gc` removes exactly the keys whose entries are
stale at snapshot time `now` — fresh entries survive unchanged — and it
leaves the writer-slot map and the expiration untouched. -/
theorem gc_removes_exactly_stale {K V : Type} [DecidableEq K] (st : CacheState K V) (now : Nat)
    (hnd : (st.cachedData.map Prod.fst).Nodup) :
    (∀ k, lookupA (GenericCache.gc st now).cachedData k =
      match lookupA st.cachedData k with
      | some (v, t) => if now > t + st.expiration then none else some (v, t)
      | none => none) ∧
    (GenericCache.gc st now).activeWrites = st.activeWrites ∧
    (GenericCache.gc st now).expiration = st.expiration := by
  refine ⟨?_, rfl, rfl⟩
  intro k
  show lookupA
      (((st.cachedData.filter (fun e => decide (now > e.2.2 + st.expiration))).map
          (fun e => e.1)).foldl (fun m k' => removeA m k') st.cachedData) k = _
  rw [lookupA_foldl_removeA]
  cases hent : lookupA st.cachedData k with
  | none =>
    have hnotin := not_mem_filter_keys st.cachedData
      (fun e => decide (now > e.2.2 + st.expiration)) k hent
    simp only [show (fun e : K × (V × Nat) => e.1) = Prod.fst from rfl]
    simp [hnotin]
  | some p =>
    rcases p with ⟨v, t⟩
    have hmem := mem_filter_keys_iff st.cachedData
      (fun e => decide (now > e.2.2 + st.expiration)) k (v, t) hnd hent
    simp only [show (fun e : K × (V × Nat) => e.1) = Prod.fst from rfl]
    by_cases hstale : now > t + st.expiration
    · have : k ∈ (st.cachedData.filter
          (fun e => decide (now > e.2.2 + st.expiration))).map Prod.fst := by
        rw [hmem]; simpa using hstale
      simp [this, hstale]
    · have : k ∉ (st.cachedData.filter
          (fun e => decide (now > e.2.2 + st.expiration))).map Prod.fst := by
        rw [hmem]; simpa using hstale
      simp [this, hstale, hent]

/-- Witness for C6 at the concrete cache `stTwoEntries` (scenario S1: key
42 inserted at 0, key 43 inserted at 30, expiration 60, gc at 70): the
stale entry 42 is collected, the fresh entry 43 survives. -/
theorem gc_removes_exactly_stale_witness :
    lookupA (GenericCache.gc stTwoEntries 70).cachedData 42 =
      (match lookupA stTwoEntries.cachedData 42 with
       | some (v, t) => if 70 > t + stTwoEntries.expiration then none else some (v, t)
       | none => none) ∧
    lookupA (GenericCache.gc stTwoEntries 70).cachedData 43 =
      (match lookupA stTwoEntries.cachedData 43 with
       | some (v, t) => if 70 > t + stTwoEntries.expiration then none else some (v, t)
       | none => none) :=
  ⟨(gc_removes_exactly_stale stTwoEntries 70 (by decide)).1 42,
   (gc_removes_exactly_stale stTwoEntries 70 (by decide)).1 43⟩

/-- C1, refuted (code bug): after a writer obtains the write token for
key 42 on the empty cache and drops it without calling `set`, the write
slot is still present in `active_writes` (only its lock is released,
since `WriteToken` has no `Drop` implementation that removes the slot),
and every subsequent `get_cached(42)` spins forever: each loop iteration
finds no entry, finds the occupied-but-released slot, acquires and drops
the read guard, and restarts, so no number of iterations reaches a
terminal outcome and no caller ever receives a new write token. -/
theorem getCached_spins_after_dropped_token :
    lookupA (GenericCache.dropWriteToken stAfterMiss 42).activeWrites 42 =
      some WriterStatus.released ∧
    ∀ (fuel now : Nat),
      GenericCache.getCachedRun fuel (GenericCache.dropWriteToken stAfterMiss 42) 42 now =
        none := by
  refine ⟨rfl, ?_⟩
  intro fuel now
  induction fuel with
  | zero => rfl
  | succ n ih =>
    have hstep : GenericCache.getCachedStep (GenericCache.dropWriteToken stAfterMiss 42) 42
        now = (StepResult.retry, GenericCache.dropWriteToken stAfterMiss 42) := rfl
    simp [GenericCache.getCachedRun, hstep, ih]

/-- C7: the top-level error mapping, after the `UnsupportedOperations`
rewrite, assigns Internal → 500, Validation → 400, fetch errors → 400,
Unsolvable → 409, ParseMatchSpec → 400, Cancelled → 400; the
`UnsupportedOperations` solver variant is rewritten to `Internal` and so
maps to 500, and no input ever reaches the unreachable solver arm. -/
theorem responseFromError_status_mapping :
    (∀ m, responseFromError (.internal m) = { status := 500, errorKind := "internal" }) ∧
    (∀ e, responseFromError (.validation e) = { status := 400, errorKind := "validation" }) ∧
    (∀ url cause, responseFromError (.fetchRepoDataJson url cause) =
      { status := 400, errorKind := "http" }) ∧
    (∀ d, responseFromError (.solver (.unsolvable d)) =
      { status := 409, errorKind := "solver" }) ∧
    (∀ s, responseFromError (.solver (.parseMatchSpecError s)) =
      { status := 400, errorKind := "validation" }) ∧
    responseFromError (.solver .cancelled) = { status := 400, errorKind := "validation" } ∧
    (∀ ops, rewriteError (.solver (.unsupportedOperations ops)) =
        .internal ("unsupported operations: " ++ String.intercalate ", " ops) ∧
      responseFromError (.solver (.unsupportedOperations ops)) =
        { status := 500, errorKind := "internal" }) ∧
    (∀ e, (responseFromError e).errorKind ≠ "unreachable") := by
  refine ⟨fun m => rfl, fun e => rfl, fun url cause => rfl, fun d => rfl, fun s => rfl, rfl,
    fun ops => ⟨rfl, rfl⟩, ?_⟩
  intro e
  cases e with
  | internal m => simp [responseFromError, rewriteError]
  | validation v => simp [responseFromError, rewriteError]
  | fetchRepoDataJson u c => simp [responseFromError, rewriteError]
  | solver se => cases se <;> simp [responseFromError, rewriteError]

/-- C9: for every subdirectory URL and every availability outcome of the
variant probe, the fetcher selects the first available variant in the
order zstd, bzip2, uncompressed, returning the matching repodata URL and
encoding. -/
theorem get_repodata_url_variant_preference :
    ∀ (u : String) (b : Bool),
      get_repodata_url u true b = (u ++ "repodata.json.zst", some Encoding.zst) ∧
      get_repodata_url u false true = (u ++ "repodata.json.bz2", some Encoding.bz2) ∧
      get_repodata_url u false false = (u ++ "repodata.json", none) :=
  fun _ _ => ⟨rfl, rfl, rfl⟩

theorem isEmpty_false_of_ne_nil {A : Type} {l : List A} (h : l ≠ []) : l.isEmpty = false := by
  cases l with
  | nil => exact absurd rfl h
  | cons a t => rfl

theorem fillWindow_one {A : Type} (x : A) (rest : List A) :
    fillWindow 1 (x :: rest) [] = (rest, [x]) := by
  cases rest <;> simp [fillWindow]

theorem buRun_one_seq {A : Type} (items : List A) :
    ∀ sched : List Nat, buRun 1 items.length sched items [] = items := by
  induction items with
  | nil => intro sched; rfl
  | cons x rest ih =>
    intro sched
    show buRun 1 (rest.length + 1) sched (x :: rest) [] = x :: rest
    simp only [buRun, fillWindow_one]
    simp [Nat.mod_one, ih]

/-- C2, refuted: with concurrency bound 2 and a completion schedule under
which the second lookup finishes first, `buffer_unordered` followed by
`try_collect` delivers the index artifacts in completion order — the
reverse of the original channel/subdir expansion order. -/
theorem fetchStage_completion_order_counterexample :
    fetchStage 2 [1] ["conda-forge/linux-64", "conda-forge/noarch"]
        (fun s => (Except.ok s : Except ApiError String)) =
      .ok ["conda-forge/noarch", "conda-forge/linux-64"] ∧
    ["conda-forge/noarch", "conda-forge/linux-64"] ≠
      ["conda-forge/linux-64", "conda-forge/noarch"] :=
  ⟨rfl, by decide⟩

/-- C2 amended: with concurrency bound 1 (the configured default) the
fetch stage is sequential, so for every completion schedule the window
holds at most one lookup and the collected list preserves the original
channel/subdir expansion order; for bounds above 1 the results are
collected in completion order, which may differ from the expansion
order. -/
theorem fetchStage_order_preserved_when_sequential {E A B : Type} (sched : List Nat)
    (pairs : List B) (fetch : B → Except E A) :
    bufferUnordered 1 sched (pairs.map fetch) = pairs.map fetch ∧
    fetchStage 1 sched pairs fetch = tryCollect (pairs.map fetch) := by
  have h := buRun_one_seq (pairs.map fetch) sched
  have h' : buRun 1 pairs.length sched (pairs.map fetch) [] = pairs.map fetch := by
    simpa using h
  exact ⟨h, by simp [fetchStage, bufferUnordered, h']⟩

theorem collectParses_failures {A : Type} (parse : String → Except String A)
    (inputs : List String) :
    (collectParses parse inputs).2 = inputs.filterMap (fun s =>
      match parse s with
      | .error e => some { input := s, error := e }
      | .ok _ => none) := by
  induction inputs with
  | nil => rfl
  | cons s rest ih =>
    cases h : parse s <;> simp [collectParses, h, ih, List.filterMap_cons]

theorem parseAllVirtualPackages_first_failure {VP : Type}
    (pvp : String → Except ParseError VP) (inputs : List String) :
    (∀ e, firstVpFailure pvp inputs = some e →
      parseAllVirtualPackages pvp inputs = .error (.virtualPackage e)) ∧
    (firstVpFailure pvp inputs = none →
      ∃ vs, parseAllVirtualPackages pvp inputs = .ok vs) := by
  induction inputs with
  | nil =>
    exact ⟨fun e h => by simp [firstVpFailure] at h, fun _ => ⟨[], rfl⟩⟩
  | cons s rest ih =>
    constructor
    · intro e h
      cases hp : pvp s with
      | error e0 =>
        have he : e0 = e := by simpa [firstVpFailure, hp] using h
        simp [parseAllVirtualPackages, hp, he]
      | ok v =>
        have h' : firstVpFailure pvp rest = some e := by simpa [firstVpFailure, hp] using h
        simp [parseAllVirtualPackages, hp, ih.1 e h']
    · intro h
      cases hp : pvp s with
      | error e0 => simp [firstVpFailure, hp] at h
      | ok v =>
        have h' : firstVpFailure pvp rest = none := by simpa [firstVpFailure, hp] using h
        rcases ih.2 h' with ⟨vs, hvs⟩
        exact ⟨v :: vs, by simp [parseAllVirtualPackages, hp, hvs]⟩

/-- C3, refuted: with two malformed virtual packages (`bad1`, `bad2`) the
validation stage rejects with a `VirtualPackage` error carrying the
single parse failure of the *first* offending input; the second malformed
virtual package is not collected into any list. -/
theorem validateRequest_vp_first_error_only :
    validateRequest okParse vpRejecting chanRejecting okParse payloadTwoBadVps =
      .error (.virtualPackage { input := "bad1", error := "invalid virtual package" }) := rfl

/-- C3 amended: validation accumulates parse failures per field for match
specs and channels — on rejection the error carries exactly the failures
of that field, in input order — but virtual packages are validated
fail-fast: the request is rejected at the first invalid virtual package
with a single parse error.  Match specs are checked before virtual
packages, which are checked before channels. -/
theorem validateRequest_error_accumulation {MS VP CH PL : Type}
    (pms : String → Except String MS) (pvp : String → Except ParseError VP)
    (pch : String → Except String CH) (ppl : String → Except String PL)
    (payload : SolveEnvironment) :
    ((collectParses pms payload.specs).2 = payload.specs.filterMap (fun s =>
      match pms s with
      | .error e => some { input := s, error := e }
      | .ok _ => none)) ∧
    ((collectParses pch payload.channels).2 = payload.channels.filterMap (fun s =>
      match pch s with
      | .error e => some { input := s, error := e }
      | .ok _ => none)) ∧
    ((collectParses pms payload.specs).2 ≠ [] →
      validateRequest pms pvp pch ppl payload =
        .error (.matchSpecs (collectParses pms payload.specs).2)) ∧
    ((collectParses pms payload.specs).2 = [] →
      ∀ e, firstVpFailure pvp payload.virtualPackages = some e →
        validateRequest pms pvp pch ppl payload = .error (.virtualPackage e)) ∧
    ((collectParses pms payload.specs).2 = [] →
      firstVpFailure pvp payload.virtualPackages = none →
      (collectParses pch payload.channels).2 ≠ [] →
        validateRequest pms pvp pch ppl payload =
          .error (.channels (collectParses pch payload.channels).2)) := by
  refine ⟨collectParses_failures pms payload.specs,
    collectParses_failures pch payload.channels, ?_, ?_, ?_⟩
  · intro hne
    simp [validateRequest, isEmpty_false_of_ne_nil hne]
  · intro h0 e hfirst
    have hvp := (parseAllVirtualPackages_first_failure pvp payload.virtualPackages).1 e hfirst
    have hemp : (collectParses pms payload.specs).2.isEmpty = true := by rw [h0]; rfl
    simp [validateRequest, hemp, hvp]
  · intro h0 hnone hchne
    rcases (parseAllVirtualPackages_first_failure pvp payload.virtualPackages).2 hnone with
      ⟨vs, hvs⟩
    have hemp : (collectParses pms payload.specs).2.isEmpty = true := by rw [h0]; rfl
    simp [validateRequest, hemp, hvs, isEmpty_false_of_ne_nil hchne]

/-- Witness for the amended C3 at a concrete request with two malformed
channels: both channel failures are reported, in input order. -/
theorem validateRequest_error_accumulation_witness :
    validateRequest okParse vpRejecting chanRejecting okParse payloadBadChannels =
      .error (.channels [{ input := "badA", error := "invalid channel" },
        { input := "badB", error := "invalid channel" }]) :=
  (validateRequest_error_accumulation okParse vpRejecting chanRejecting okParse
    payloadBadChannels).2.2.2.2 rfl rfl (by decide)

/-- C8, refuted: `parse_virtual_package` parses the version segment before
checking for a fourth segment, so an input with three separators whose
version segment is invalid (here: empty) fails with an invalid-version
error rather than with `too many equals signs`, although it contains more
than two `=` signs. -/
theorem parse_virtual_package_version_error_first :
    parse_virtual_package versionOfNat packageNameOk "a===" =
      .error { input := "a===", error := "invalid version - not a valid version: " } ∧
    (splitEq "a===").length = 4 ∧
    "invalid version - not a valid version: " ≠ "too many equals signs" :=
  ⟨rfl, rfl, by decide⟩

/-- C8 amended: for a virtual package of the form name[=version[=build]],
parsing yields (name, version, build) where the version segment defaults
to the string 0 and the build segment defaults to the string 0 when
absent; and when the string splits into more than three segments (more
than two `=` signs) *and the version segment parses successfully*, the
result is the `too many equals signs` error.  (When the version segment
fails to parse, the invalid-version error takes precedence.) -/
theorem parse_virtual_package_defaults {Name Vers : Type}
    (parseVersion : String → Except String Vers) (tryName : String → Except String Name)
    (s : String) (v : Vers) (nm : Name) :
    (∀ name, splitEq s = [name] → parseVersion "0" = .ok v → tryName name = .ok nm →
      parse_virtual_package parseVersion tryName s =
        .ok { name := nm, version := v, buildString := "0" }) ∧
    (∀ name vstr, splitEq s = [name, vstr] → parseVersion vstr = .ok v →
      tryName name = .ok nm →
      parse_virtual_package parseVersion tryName s =
        .ok { name := nm, version := v, buildString := "0" }) ∧
    (∀ name vstr bstr, splitEq s = [name, vstr, bstr] → parseVersion vstr = .ok v →
      tryName name = .ok nm →
      parse_virtual_package parseVersion tryName s =
        .ok { name := nm, version := v, buildString := bstr }) ∧
    (3 < (splitEq s).length →
      parseVersion (((splitEq s).get? 1).getD "0") = .ok v →
      parse_virtual_package parseVersion tryName s =
        .error { input := s, error := "too many equals signs" }) := by
  refine ⟨?_, ?_, ?_, ?_⟩
  · intro name hsp hv hn
    simp [parse_virtual_package, hsp, hv, hn]
  · intro name vstr hsp hv hn
    simp [parse_virtual_package, hsp, hv, hn]
  · intro name vstr bstr hsp hv hn
    simp [parse_virtual_package, hsp, hv, hn]
  · intro hlen hv
    have h3 : ((splitEq s).get? 3).isSome = true := by
      cases hq : (splitEq s).get? 3 with
      | none =>
        rw [List.get?_eq_none] at hq
        omega
      | some _ => rfl
    simp only [parse_virtual_package, hv, h3]
    simp

/-- Witness for the amended C8: the bare name defaults both version and
build, and a four-segment input with a parsable version segment is
rejected with `too many equals signs`. -/
theorem parse_virtual_package_defaults_witness :
    parse_virtual_package versionOfNat packageNameOk "__unix" =
      .ok { name := "__unix", version := 0, buildString := "0" } ∧
    parse_virtual_package versionOfNat packageNameOk "a=1=2=3" =
      .error { input := "a=1=2=3", error := "too many equals signs" } :=
  ⟨(parse_virtual_package_defaults versionOfNat packageNameOk "__unix" 0
      "__unix").1 "__unix" rfl rfl rfl,
   (parse_virtual_package_defaults versionOfNat packageNameOk "a=1=2=3" 1
      "a").2.2.2 (by decide) rfl⟩

/-- C10: the `name` field of the solve request does not influence the
pipeline: for every environment of collaborators and every payload, two
requests differing only in `name` produce the same outcome. -/
theorem solve_name_noninterference {MS VP PL A R : Type}
    (env : PipelineEnv MS VP PL A R) (payload : SolveEnvironment) (n₁ n₂ : String) :
    solveEnvironmentInner env { payload with name := n₁ } =
      solveEnvironmentInner env { payload with name := n₂ } := rfl

end RattlerServer
